import Mathlib

/-!
Verification development for the Safeteer dashboard's time-bucketing and
classification logic (`src/pages/Dashboard/uteis/tempo.ts`,
`src/pages/Dashboard/index.tsx`, `src/pages/Dashboard/componentes/LinhaDoTempoAlertas.tsx`).

The TypeScript is embedded shallowly:
* machine numbers become `Int` / `Nat` (all quantities involved are integral
  millisecond counts; JavaScript numbers are exact on this range);
* `null`/`undefined` become `Option`;
* the ambient browser environment (`Date.now()`, the host time-zone offset
  used by `new Date(string)`, and the `toLocaleString` formatters) is passed
  explicitly as parameters `now`, `off` and `fmt`.
-/

namespace Safeteer

/-- Severity enumeration, from `tipos.ts`: `"crítica" | "alta" | "média" | "baixa"`. -/
inductive Severidade where
  | baixa | media | alta | critica
  deriving DecidableEq

/-- Status enumeration, from `tipos.ts`: `"aberta" | "em_progresso" | "fechada"`. -/
inductive Status where
  | aberta | em_progresso | fechada
  deriving DecidableEq

/-- Relative-period selector, from the union type `"24h" | "7d" | "30d"`. -/
inductive Periodo where
  | h24 | d7 | d30
  deriving DecidableEq

/-- The `Alerta` record of `tipos.ts` (fields the Dashboard code consumes).
`category` is kept as a plain string (the TS union of string literals). -/
structure Alerta where
  id : String
  title : String
  createdAt : String
  updatedAt : Option String
  severity : Severidade
  status : Status
  endpoint : String
  category : String
  score : Int
  deriving DecidableEq

/-- One point of the timeline chart, from `tipos.ts` (`PontoTimeline`). -/
structure PontoTimeline where
  hour : String
  baixa : Nat
  media : Nat
  alta : Nat
  critica : Nat
  deriving DecidableEq

/-- Custom range, from `tipos.ts`: `{ start?: string; end?: string }`
(`end` is a Lean keyword, hence `end_`). -/
structure Intervalo where
  start : Option String
  end_ : Option String
  deriving DecidableEq

/-! ## JavaScript-semantics helpers -/

/-- JS truthiness of an optional string: `undefined` and `""` are falsy. -/
def strTruthy : Option String → Bool
  | none => false
  | some s => s ≠ ""

/-- JS `a || b` on an optional string `a` and a string `b`. -/
def jsOrString (a : Option String) (b : String) : String :=
  match a with
  | none => b
  | some s => if s = "" then b else s

/-- `Math.min(...xs)` over a spread list: `none` encodes the `+Infinity`
returned by `Math.min()` on an empty argument list. -/
def jsMinList : List Int → Option Int
  | [] => none
  | x :: xs =>
    match jsMinList xs with
    | none => some x
    | some m => some (min x m)

/-- `Math.max(...xs)` over a spread list: `none` encodes the `-Infinity`
returned by `Math.max()` on an empty argument list. -/
def jsMaxList : List Int → Option Int
  | [] => none
  | x :: xs =>
    match jsMaxList xs with
    | none => some x
    | some m => some (max x m)

/-- `String.prototype.startsWith`: is `p` a prefix of `s`? -/
def comecaCom (s p : String) : Bool :=
  p.data.isPrefixOf s.data

/-- `String.prototype.toLowerCase` restricted to the Basic-Latin and Latin-1
letters (the only characters the dashboard's severity/status labels use). -/
def jsCharToLower (c : Char) : Char :=
  if 'A' ≤ c ∧ c ≤ 'Z' then Char.ofNat (c.toNat + 32)
  else if 0xC0 ≤ c.toNat ∧ c.toNat ≤ 0xDE ∧ c.toNat ≠ 0xD7 then Char.ofNat (c.toNat + 32)
  else c

/-- Lower-case a whole string (JS `toLowerCase`, Latin-1 range). -/
def jsToLower (s : String) : String :=
  String.mk (s.data.map jsCharToLower)

/-- `.normalize("NFD").replace(/[̀-ͯ]/g, "")` restricted to Latin-1:
maps each precomposed accented Latin-1 letter to its base letter. -/
def tiraAcento (c : Char) : Char :=
  let n := c.toNat
  if (0xC0 ≤ n ∧ n ≤ 0xC5) then 'A'
  else if n = 0xC7 then 'C'
  else if (0xC8 ≤ n ∧ n ≤ 0xCB) then 'E'
  else if (0xCC ≤ n ∧ n ≤ 0xCF) then 'I'
  else if n = 0xD1 then 'N'
  else if (0xD2 ≤ n ∧ n ≤ 0xD6) then 'O'
  else if (0xD9 ≤ n ∧ n ≤ 0xDC) then 'U'
  else if n = 0xDD then 'Y'
  else if (0xE0 ≤ n ∧ n ≤ 0xE5) then 'a'
  else if n = 0xE7 then 'c'
  else if (0xE8 ≤ n ∧ n ≤ 0xEB) then 'e'
  else if (0xEC ≤ n ∧ n ≤ 0xEF) then 'i'
  else if n = 0xF1 then 'n'
  else if (0xF2 ≤ n ∧ n ≤ 0xF6) then 'o'
  else if (0xF9 ≤ n ∧ n ≤ 0xFC) then 'u'
  else if n = 0xFD ∨ n = 0xFF then 'y'
  else c

/-! ## Calendar arithmetic (proleptic Gregorian, days relative to 1970-01-01)

Standard civil-from-days / days-from-civil computations, used to model the
ECMAScript time-value computations (`MakeDay`, `Date.prototype.toISOString`). -/

/-- Days since the epoch of the civil date `y-m-d`. -/
def diasDesdeCivil (y : Int) (m d : Nat) : Int :=
  let y2 : Int := if m ≤ 2 then y - 1 else y
  let era : Int := Int.fdiv y2 400
  let yoe : Int := y2 - era * 400
  let mp : Int := if 2 < m then (m : Int) - 3 else (m : Int) + 9
  let doy : Int := Int.fdiv (153 * mp + 2) 5 + (d : Int) - 1
  let doe : Int := yoe * 365 + Int.fdiv yoe 4 - Int.fdiv yoe 100 + doy
  era * 146097 + doe - 719468

/-- Civil date `(year, month, day)` of a day count since the epoch. -/
def civilDesdeDias (z : Int) : Int × Nat × Nat :=
  let z2 := z + 719468
  let era := Int.fdiv z2 146097
  let doe := (z2 - era * 146097).toNat
  let yoe := (doe - doe / 1460 + doe / 36524 - doe / 146096) / 365
  let y : Int := (yoe : Int) + era * 400
  let doy := doe - (365 * yoe + yoe / 4 - yoe / 100)
  let mp := (5 * doy + 2) / 153
  let d := doy - (153 * mp + 2) / 5 + 1
  let m := if mp < 10 then mp + 3 else mp - 9
  (if m ≤ 2 then y + 1 else y, m, d)

/-- Left-pad a natural's decimal representation with zeros to width `w`. -/
def padZeros (w : Nat) (n : Nat) : String :=
  let s := toString n
  String.mk (List.replicate (w - s.length) '0') ++ s

/-- `Date.prototype.toISOString` for instants whose year lies in 0..9999
(the only range the dashboard ever produces). -/
def toISOString (ms : Int) : String :=
  let dias := Int.fdiv ms 86400000
  let resto := (ms - dias * 86400000).toNat
  let ymd := civilDesdeDias dias
  padZeros 4 ymd.1.toNat ++ "-" ++ padZeros 2 ymd.2.1 ++ "-" ++ padZeros 2 ymd.2.2 ++
    "T" ++ padZeros 2 (resto / 3600000) ++ ":" ++ padZeros 2 (resto / 60000 % 60) ++
    ":" ++ padZeros 2 (resto / 1000 % 60) ++ "." ++ padZeros 3 (resto % 1000) ++ "Z"

/-! ## Model of the host `new Date(string)` parser

`parseEmUtc` in `tempo.ts` is just `new Date(iso).getTime()` guarded by
`isNaN`.  The host parser (modelled after V8, the engine of the browsers the
dashboard targets) accepts the ECMAScript Date Time String Format
`YYYY-MM-DD[(T| )HH:MM[:SS[.sss]]][Z|±HH:MM]`:

* a date-only string denotes UTC midnight;
* a date-time string with a trailing `Z`/`z` or numeric offset denotes the
  instant shifted by that offset;
* a date-time string *without* an offset is interpreted in the host's local
  time zone (V8 treats the space separator like `T`), hence the explicit
  `off` parameter: the host zone's offset from UTC in minutes (east
  positive), assumed constant over the relevant instants;
* anything else — in particular `DD/MM/YYYY` strings, whose first component
  V8 rejects as a month — is `Invalid Date`, i.e. `none`.
-/

/-- Calendar fields already summed into `base` milliseconds, plus the
offset the string carried (`none` = no offset ⇒ local interpretation). -/
structure CamposData where
  base : Int
  desloc : Option Int
  deriving DecidableEq

/-- One decimal digit. -/
def lerDig (c : Char) : Option Nat :=
  if '0' ≤ c ∧ c ≤ '9' then some (c.toNat - 48) else none

/-- Two decimal digits. -/
def ler2 : List Char → Option (Nat × List Char)
  | a :: b :: r =>
    match lerDig a, lerDig b with
    | some x, some y => some (10 * x + y, r)
    | _, _ => none
  | _ => none

/-- Three decimal digits. -/
def ler3 : List Char → Option (Nat × List Char)
  | a :: b :: c :: r =>
    match lerDig a, lerDig b, lerDig c with
    | some x, some y, some z => some (100 * x + 10 * y + z, r)
    | _, _, _ => none
  | _ => none

/-- Four decimal digits. -/
def ler4 : List Char → Option (Nat × List Char)
  | a :: b :: c :: d :: r =>
    match lerDig a, lerDig b, lerDig c, lerDig d with
    | some w, some x, some y, some z => some (1000 * w + 100 * x + 10 * y + z, r)
    | _, _, _, _ => none
  | _ => none

/-- Consume one expected character. -/
def esperar (c : Char) : List Char → Option (List Char)
  | x :: r => if x = c then some r else none
  | [] => none

/-- `YYYY-MM-DD` prefix, producing UTC-midnight milliseconds of that date. -/
def lerData (l : List Char) : Option (Int × List Char) := do
  let (y, r1) ← ler4 l
  let r2 ← esperar '-' r1
  let (m, r3) ← ler2 r2
  let r4 ← esperar '-' r3
  let (d, r5) ← ler2 r4
  if 1 ≤ m ∧ m ≤ 12 ∧ 1 ≤ d ∧ d ≤ 31 then
    some (diasDesdeCivil (y : Int) m d * 86400000, r5)
  else none

/-- `HH:MM[:SS[.sss]]`, producing milliseconds past midnight. -/
def lerHora (l : List Char) : Option (Int × List Char) := do
  let (hh, r1) ← ler2 l
  let r2 ← esperar ':' r1
  let (mm, r3) ← ler2 r2
  if hh ≤ 23 ∧ mm ≤ 59 then
    match esperar ':' r3 with
    | none => some ((hh * 3600000 + mm * 60000 : Nat), r3)
    | some r4 => do
      let (ss, r5) ← ler2 r4
      if ss ≤ 59 then
        match esperar '.' r5 with
        | none => some ((hh * 3600000 + mm * 60000 + ss * 1000 : Nat), r5)
        | some r6 => do
          let (mmm, r7) ← ler3 r6
          some ((hh * 3600000 + mm * 60000 + ss * 1000 + mmm : Nat), r7)
      else none
  else none

/-- Trailing offset: end of string = local, `Z`/`z` = UTC, `±HH:MM` = fixed
offset in minutes.  Any other trailing garbage invalidates the string. -/
def lerDesloc : List Char → Option (Option Int)
  | [] => some none
  | ['Z'] => some (some 0)
  | ['z'] => some (some 0)
  | c :: r =>
    if c = '+' ∨ c = '-' then do
      let (hh, r1) ← ler2 r
      let r2 ← esperar ':' r1
      let (mm, r3) ← ler2 r2
      if r3 = [] ∧ hh ≤ 23 ∧ mm ≤ 59 then
        some (some ((if c = '-' then -1 else 1) * ((hh : Int) * 60 + mm)))
      else none
    else none

/-- Syntactic part of the host date parser: calendar fields and carried
offset, independent of the host time zone. -/
def jsDateParseSintaxe (s : String) : Option CamposData := do
  let (dataMs, r) ← lerData s.data
  match r with
  | [] => some ⟨dataMs, some 0⟩
  | sep :: r1 =>
    if sep = 'T' ∨ sep = ' ' then do
      let (horaMs, r2) ← lerHora r1
      let d ← lerDesloc r2
      some ⟨dataMs + horaMs, d⟩
    else none

/-- Turn parsed fields into an instant: an explicit offset is subtracted;
fields without an offset are local time in the host zone `off` (minutes). -/
def jsDateInstante (off : Int) (c : CamposData) : Int :=
  match c.desloc with
  | some o => c.base - o * 60000
  | none => c.base - off * 60000

/-- `parseEmUtc` from `tempo.ts`: `new Date(iso).getTime()`, `null` when the
result is `NaN` (Invalid Date).  `off` is the host zone offset in minutes. -/
def parseEmUtc (off : Int) (iso : String) : Option Int :=
  (jsDateParseSintaxe iso).map (jsDateInstante off)

/-! ## Normalizers from `Dashboard/index.tsx` -/

/-- A raw timestamp field: `string | number` in TypeScript. -/
inductive ValorData where
  | texto (s : String)
  | numero (n : Int)
  deriving DecidableEq

/-- `paraISO` from `index.tsx`: `undefined` passes through; a number below
`1e12` is epoch seconds (multiplied by 1000), otherwise epoch milliseconds,
then rendered with `toISOString`; a string passes through unchanged. -/
def paraISO : Option ValorData → Option String
  | none => none
  | some (.numero v) =>
    let ms := if v < 1000000000000 then v * 1000 else v
    some (toISOString ms)
  | some (.texto s) => some s

/-- `mapearSeveridade` from `index.tsx`: lower-case, then classify by
prefix; `undefined`/empty input and unrecognized prefixes give `undefined`. -/
def mapearSeveridade (s : Option String) : Option Severidade :=
  match s with
  | none => none
  | some s =>
    let v := jsToLower s
    if v = "" then none
    else if comecaCom v "cr" then some .critica
    else if comecaCom v "al" then some .alta
    else if comecaCom v "mé" || comecaCom v "me" then some .media
    else if comecaCom v "ba" then some .baixa
    else none

/-- `mapearStatus` from `index.tsx`: strip diacritics (NFD + combining-mark
removal), lower-case, drop whitespace and underscores, then match the
anchored alternation regexes, which amounts to membership in three fixed
spelling sets. -/
def mapearStatus (s : Option String) : Option Status :=
  match s with
  | none => none
  | some s =>
    let v := String.mk (((s.data.map tiraAcento).map jsCharToLower).filter
      (fun c => !(c.isWhitespace || c = '_')))
    if v ∈ ["emandamento", "inprogress", "progress", "andamento"] then some .em_progresso
    else if v ∈ ["fechada", "closed", "resolvida", "resolvido"] then some .fechada
    else if v ∈ ["aberta", "aberto", "open", "opened", "novo", "nova"] then some .aberta
    else none

/-- `pontuacaoPorSeveridade` from `index.tsx`. -/
def pontuacaoPorSeveridade : Severidade → Int
  | .critica => 100
  | .alta => 75
  | .media => 50
  | .baixa => 25

/-- The raw API header shape consumed by `adaptarHeaderParaAlerta`
(`index.tsx` reads these fields through `as any`). -/
structure ApiAlertHeaderRaw where
  alerta_id : String
  titulo : Option String
  severidade : Option String
  data_evento : Option ValorData
  created_at : Option ValorData
  updated_at : Option ValorData
  status : Option String
  origem : Option String
  endpoint : Option String
  categoria : Option String
  deriving DecidableEq

/-- `adaptarHeaderParaAlerta` from `index.tsx`.  `now` is the ambient
`Date.now()` instant: the source computes
`createdAt: (paraISO(dataEvento) as string) || new Date().toISOString()`,
so a missing/empty date falls back to the current wall-clock instant. -/
def adaptarHeaderParaAlerta (now : Int) (h : ApiAlertHeaderRaw) : Alerta :=
  let sev := (mapearSeveridade h.severidade).getD .media
  let dataEvento := h.data_evento.orElse (fun _ => h.created_at)
  let origem := h.origem.getD (h.endpoint.getD "desconhecido")
  { id := h.alerta_id
    title := jsOrString h.titulo ("Alerta " ++ h.alerta_id)
    createdAt := jsOrString (paraISO dataEvento) (toISOString now)
    updatedAt := paraISO h.updated_at
    severity := sev
    status := (mapearStatus h.status).getD .aberta
    endpoint := origem
    category := jsOrString h.categoria "outros"
    score := pontuacaoPorSeveridade sev }

/-! ## The Timeline Aggregator (`construirTimelineAPartirDeAlertas`, `tempo.ts`)

The ambient dependencies are explicit parameters:
* `off` — host time-zone offset consumed by `parseEmUtc`;
* `now` — `Date.now()`;
* `fmt` — the three `toLocaleString`/`toLocaleDateString` label formatters
  (hour, day-month, weekday), each a function of the instant and of the
  requested display time zone.
-/

/-- Milliseconds in an hour (`HOUR` constant in the source). -/
def HOUR : Int := 3600000

/-- Milliseconds in a day (`DAY` constant in the source). -/
def DAY : Int := 24 * HOUR

/-- The three locale label formatters used for bucket labels.  They are
external (`Intl`) functions of the instant and the display time zone. -/
structure Formatadores where
  hora : Int → String → String
  diaMes : Int → String → String
  diaSemana : Int → String → String

/-- `rotuloHora` from `tempo.ts`: locale hour plus `":00"`. -/
def rotuloHora (fmt : Formatadores) (msUtc : Int) (timezone : String) : String :=
  fmt.hora msUtc timezone ++ ":00"

/-- Increment the severity counter of one timeline point (the
`bins[i].baixa++` … `else bins[i].critica++` cascade). -/
def incSev (s : Severidade) (p : PontoTimeline) : PontoTimeline :=
  match s with
  | .baixa => ⟨p.hour, p.baixa + 1, p.media, p.alta, p.critica⟩
  | .media => ⟨p.hour, p.baixa, p.media + 1, p.alta, p.critica⟩
  | .alta => ⟨p.hour, p.baixa, p.media, p.alta + 1, p.critica⟩
  | .critica => ⟨p.hour, p.baixa, p.media, p.alta, p.critica + 1⟩

/-- In-place update of the `i`-th list element (JS array mutation). -/
def modifyIdx : List α → Nat → (α → α) → List α
  | [], _, _ => []
  | x :: xs, 0, f => f x :: xs
  | x :: xs, n + 1, f => x :: modifyIdx xs n f

/-- One iteration of the tally loop: resolve the alert's instant, skip it
when unresolvable or outside `[s, e)`, otherwise bump the bucket at index
`floor((t − s)/w)` — clamped to the last bucket in explicit mode
(`clamp = true`), unclamped in relative mode. -/
def passoContagem (off s e w : Int) (clamp : Bool) (bs : List PontoTimeline)
    (a : Alerta) : List PontoTimeline :=
  match parseEmUtc off a.createdAt with
  | none => bs
  | some t =>
    if t < s ∨ e ≤ t then bs
    else
      let raw := (t - s).toNat / w.toNat
      let i := if clamp then min (bs.length - 1) raw else raw
      modifyIdx bs i (incSev a.severity)

/-- The tally loop over all alerts (`for (const a of alerts) …`). -/
def contarAlertas (off s e w : Int) (clamp : Bool) (alerts : List Alerta)
    (bins : List PontoTimeline) : List PontoTimeline :=
  alerts.foldl (passoContagem off s e w clamp) bins

/-- Resolution of `startUtc` in explicit mode (`tempo.ts` line 200):
`range.start ? parseEmUtc(range.start)! : Math.min(...alerts.map(a => parseEmUtc(a.createdAt) ?? Date.now()))`.
The TS non-null assertion is erased at runtime; a `null` flowing into the
subsequent arithmetic/comparisons is coerced to `+0` by JS, hence `getD 0`.
`none` encodes the `+Infinity` of `Math.min()` on an empty list. -/
def startExplicito (off now : Int) (alerts : List Alerta) (rs : Option String) : Option Int :=
  if strTruthy rs then some ((parseEmUtc off (rs.getD "")).getD 0)
  else jsMinList (alerts.map (fun a => (parseEmUtc off a.createdAt).getD now))

/-- Resolution of `endUtc` in explicit mode (`tempo.ts` line 202), with
`none` encoding the `-Infinity` of `Math.max()` on an empty list. -/
def endExplicito (off now : Int) (alerts : List Alerta) (re : Option String) : Option Int :=
  if strTruthy re then some ((parseEmUtc off (re.getD "")).getD 0)
  else jsMaxList (alerts.map (fun a => (parseEmUtc off a.createdAt).getD now))

/-- The resolved window `(sUtc, eUtc)` of explicit mode, after the
one-hour-minimum adjustment `eUtc = Math.max(endUtc, startUtc + HOUR)`.
`none` when `startUtc` is `+Infinity` (start missing and no alerts): the
JS arithmetic then degenerates into a `NaN` span and an empty bucket array
(`Array.from({length: NaN})` has length 0).  When `endUtc` is `-Infinity`
(end missing and no alerts), `Math.max` discards it for `startUtc + HOUR`. -/
def resolverJanelaExplicita (off now : Int) (alerts : List Alerta) (r : Intervalo) :
    Option (Int × Int) :=
  match startExplicito off now alerts r.start with
  | none => none
  | some s =>
    match endExplicito off now alerts r.end_ with
    | none => some (s, s + HOUR)
    | some e0 => some (s, max e0 (s + HOUR))

/-- Bucket width chosen in explicit mode: hourly for windows of at most 36
hours, daily otherwise (`tempo.ts` line 210). -/
def larguraBucket (s e : Int) : Int :=
  if e - s ≤ 36 * HOUR then HOUR else DAY

/-- Bucket count in explicit mode:
`Math.max(1, Math.ceil((eUtc - sUtc) / bucketSize))`; `eUtc − sUtc ≥ HOUR > 0`
so the real-number ceiling equals the integer ceiling `(span + w − 1) / w`. -/
def numBucketsExplicito (s e w : Int) : Nat :=
  max 1 (((e - s).toNat + (w.toNat - 1)) / w.toNat)

/-- MODE 1 of `construirTimelineAPartirDeAlertas`: custom range. -/
def modoRangeCustom (off now : Int) (fmt : Formatadores) (alerts : List Alerta)
    (r : Intervalo) (timezone : String) : List PontoTimeline :=
  match resolverJanelaExplicita off now alerts r with
  | none => []
  | some (sUtc, eUtc) =>
    let bucketSize := larguraBucket sUtc eUtc
    let n := numBucketsExplicito sUtc eUtc bucketSize
    let bins := (List.range n).map (fun (i : Nat) =>
      let t := sUtc + (i : Int) * bucketSize
      let hour := if bucketSize = HOUR then rotuloHora fmt t timezone
        else fmt.diaMes t timezone
      (⟨hour, 0, 0, 0, 0⟩ : PontoTimeline))
    contarAlertas off sUtc eUtc bucketSize true alerts bins

/-- Window span of relative mode (`size` in the source). -/
def tamanhoPeriodo : Periodo → Int
  | .h24 => 24 * HOUR
  | .d7 => 7 * DAY
  | .d30 => 30 * DAY

/-- Bucket width of relative mode. -/
def bucketPeriodo : Periodo → Int
  | .h24 => HOUR
  | _ => DAY

/-- MODE 2 of `construirTimelineAPartirDeAlertas`: relative window, with
`endUtc = Math.floor(Date.now() / bucketSize) * bucketSize + bucketSize`. -/
def modoRelativo (off now : Int) (fmt : Formatadores) (alerts : List Alerta)
    (period : Periodo) (timezone : String) : List PontoTimeline :=
  let size := tamanhoPeriodo period
  let bucketSize := bucketPeriodo period
  let endUtc := Int.fdiv now bucketSize * bucketSize + bucketSize
  let startUtc := endUtc - size
  let bins := (List.range (size / bucketSize).toNat).map (fun (i : Nat) =>
    let t := startUtc + (i : Int) * bucketSize
    let hour :=
      match period with
      | .h24 => rotuloHora fmt t timezone
      | .d7 => fmt.diaSemana t timezone
      | .d30 => fmt.diaMes t timezone
    (⟨hour, 0, 0, 0, 0⟩ : PontoTimeline))
  contarAlertas off startUtc endUtc bucketSize false alerts bins

/-- `construirTimelineAPartirDeAlertas` from `tempo.ts`: explicit mode when
`range?.start || range?.end` is truthy, relative mode otherwise. -/
def construirTimelineAPartirDeAlertas (off now : Int) (fmt : Formatadores)
    (alerts : List Alerta) (period : Periodo) (range : Option Intervalo)
    (timezone : String) : List PontoTimeline :=
  match range with
  | some r =>
    if strTruthy r.start || strTruthy r.end_ then
      modoRangeCustom off now fmt alerts r timezone
    else modoRelativo off now fmt alerts period timezone
  | none => modoRelativo off now fmt alerts period timezone

/-- The window and bucketing parameters `(s, e, w, clamp)` the aggregator
ends up using: `clamp = true` marks explicit mode (whose tally clamps the
bucket index to the last bucket).  `none` marks the degenerate explicit
case with `+Infinity` start, where the aggregator returns no buckets. -/
def janelaResolvida (off now : Int) (alerts : List Alerta) (period : Periodo)
    (range : Option Intervalo) : Option (Int × Int × Int × Bool) :=
  let relativa :=
    let w := bucketPeriodo period
    let e := Int.fdiv now w * w + w
    some (e - tamanhoPeriodo period, e, w, false)
  match range with
  | some r =>
    if strTruthy r.start || strTruthy r.end_ then
      match resolverJanelaExplicita off now alerts r with
      | none => none
      | some (s, e) => some (s, e, larguraBucket s e, true)
    else relativa
  | none => relativa

/-! ## The presentation-layer severity filter (`LinhaDoTempoAlertas.tsx`) -/

/-- The `dados` computation of `LinhaDoTempoAlertas`: build the timeline
from the *full* alert list, then — when some severities are selected —
zero out every non-selected severity's counts, keeping labels intact. -/
def dadosTimeline (off now : Int) (fmt : Formatadores) (alerts : List Alerta)
    (periodo : Periodo) (range : Option Intervalo) (timezone : String)
    (severidadesSelecionadas : List Severidade) : List PontoTimeline :=
  let base := construirTimelineAPartirDeAlertas off now fmt alerts periodo range timezone
  if severidadesSelecionadas.length = 0 then base
  else
    base.map (fun b =>
      ⟨b.hour,
        if severidadesSelecionadas.contains .baixa then b.baixa else 0,
        if severidadesSelecionadas.contains .media then b.media else 0,
        if severidadesSelecionadas.contains .alta then b.alta else 0,
        if severidadesSelecionadas.contains .critica then b.critica else 0⟩)

/-! ## Derived notions used to state the claims -/

/-- Does alert `a` resolve to an instant inside the half-open window `[s, e)`?
Unresolvable timestamps are outside every window. -/
def naJanela (off s e : Int) (a : Alerta) : Bool :=
  match parseEmUtc off a.createdAt with
  | none => false
  | some t => decide (s ≤ t ∧ t < e)

/-- Total count carried by one timeline point (all four severities). -/
def somaPonto (p : PontoTimeline) : Nat :=
  p.baixa + p.media + p.alta + p.critica

/-- Total count carried by a whole timeline. -/
def somaTotal (l : List PontoTimeline) : Nat :=
  (l.map somaPonto).sum

/-- Erase the display label, keeping the four counts. -/
def semRotulo (p : PontoTimeline) : PontoTimeline :=
  ⟨"", p.baixa, p.media, p.alta, p.critica⟩

/-- Label of bucket `i` as the aggregator renders it: explicit mode uses the
hour label for hourly buckets and day-month otherwise; relative mode selects
by period. -/
def rotuloBucket (fmt : Formatadores) (tz : String) (c : Bool) (period : Periodo)
    (w t : Int) : String :=
  if c then (if w = HOUR then rotuloHora fmt t tz else fmt.diaMes t tz) else
    match period with
    | .h24 => rotuloHora fmt t tz
    | .d7 => fmt.diaSemana t tz
    | .d30 => fmt.diaMes t tz

/-- Number of buckets the aggregator builds for window `(s, e)`, width `w`,
in explicit (`c = true`) or relative (`c = false`) mode. -/
def numBuckets (s e w : Int) (c : Bool) : Nat :=
  if c then numBucketsExplicito s e w else ((e - s) / w).toNat

/-- Modelled from the spec: "the minimum resolvable `createdAt` across all
input alerts" — the least instant among the alerts whose timestamp parses;
absent when no alert is resolvable. -/
def minCreatedAtResolvavelSpec (off : Int) (alerts : List Alerta) : Option Int :=
  match alerts.filterMap (fun a => parseEmUtc off a.createdAt) with
  | [] => none
  | x :: xs => some (xs.foldl min x)

/-- Modelled from the spec: "the maximum resolvable `createdAt` across all
input alerts". -/
def maxCreatedAtResolvavelSpec (off : Int) (alerts : List Alerta) : Option Int :=
  match alerts.filterMap (fun a => parseEmUtc off a.createdAt) with
  | [] => none
  | x :: xs => some (xs.foldl max x)

/-- Modelled from the spec: the post-hoc zeroing pass of the presentation
layer — counts of severities outside the selected subset become zero, the
others and the label stay unchanged. -/
def zeraForaSpec (sel : List Severidade) (b : PontoTimeline) : PontoTimeline :=
  ⟨b.hour,
    if Severidade.baixa ∈ sel then b.baixa else 0,
    if Severidade.media ∈ sel then b.media else 0,
    if Severidade.alta ∈ sel then b.alta else 0,
    if Severidade.critica ∈ sel then b.critica else 0⟩

/-! ## Lemmas about the tally loop -/

theorem comprimento_modifyIdx (l : List α) (i : Nat) (f : α → α) :
    (modifyIdx l i f).length = l.length := by
  induction l generalizing i with
  | nil => rfl
  | cons x xs ih =>
    cases i with
    | zero => rfl
    | succ n => simpa [modifyIdx] using ih n

theorem map_modifyIdx_comm (l : List α) (i : Nat) (f : α → α) (g : α → β) (f2 : β → β)
    (h : ∀ x, g (f x) = f2 (g x)) :
    (modifyIdx l i f).map g = modifyIdx (l.map g) i f2 := by
  induction l generalizing i with
  | nil => rfl
  | cons x xs ih =>
    cases i with
    | zero => simp [modifyIdx, h]
    | succ n => simp [modifyIdx, ih n]

theorem somaPonto_incSev (s : Severidade) (p : PontoTimeline) :
    somaPonto (incSev s p) = somaPonto p + 1 := by
  cases s <;> simp [incSev, somaPonto] <;> omega

theorem hour_incSev (s : Severidade) (p : PontoTimeline) :
    (incSev s p).hour = p.hour := by
  cases s <;> rfl

theorem semRotulo_incSev (s : Severidade) (p : PontoTimeline) :
    semRotulo (incSev s p) = incSev s (semRotulo p) := by
  cases s <;> rfl

theorem somaTotal_modifyIdx_inc (l : List PontoTimeline) (i : Nat) (sv : Severidade)
    (h : i < l.length) :
    somaTotal (modifyIdx l i (incSev sv)) = somaTotal l + 1 := by
  induction l generalizing i with
  | nil => simp at h
  | cons x xs ih =>
    cases i with
    | zero => simp [modifyIdx, somaTotal, somaPonto_incSev]; omega
    | succ n =>
      have hn : n < xs.length := by simpa using h
      have := ih n hn
      simp only [modifyIdx, somaTotal, List.map_cons, List.sum_cons] at *
      omega

theorem comprimento_passo (off s e w : Int) (c : Bool) (bs : List PontoTimeline)
    (a : Alerta) : (passoContagem off s e w c bs a).length = bs.length := by
  unfold passoContagem
  cases parseEmUtc off a.createdAt with
  | none => rfl
  | some t =>
    by_cases h : t < s ∨ e ≤ t
    · simp [h]
    · simp [h, comprimento_modifyIdx]

theorem comprimento_contar (off s e w : Int) (c : Bool) (alerts : List Alerta)
    (bins : List PontoTimeline) :
    (contarAlertas off s e w c alerts bins).length = bins.length := by
  induction alerts generalizing bins with
  | nil => rfl
  | cons a as ih =>
    calc (contarAlertas off s e w c (a :: as) bins).length
        = (contarAlertas off s e w c as (passoContagem off s e w c bins a)).length := rfl
      _ = (passoContagem off s e w c bins a).length := ih _
      _ = bins.length := comprimento_passo ..

theorem soma_passo (off s e w : Int) (c : Bool) (bs : List PontoTimeline) (a : Alerta)
    (hidx : ∀ t : Int, s ≤ t → t < e →
      (if c then min (bs.length - 1) ((t - s).toNat / w.toNat)
       else (t - s).toNat / w.toNat) < bs.length) :
    somaTotal (passoContagem off s e w c bs a)
      = somaTotal bs + (if naJanela off s e a then 1 else 0) := by
  cases hp : parseEmUtc off a.createdAt with
  | none =>
    have hj : naJanela off s e a = false := by simp [naJanela, hp]
    simp [passoContagem, hp, hj]
  | some t =>
    by_cases h : t < s ∨ e ≤ t
    · have hj : naJanela off s e a = false := by
        simp only [naJanela, hp]
        rw [decide_eq_false (by omega)]
      simp only [passoContagem, hp, hj, if_pos h, Bool.false_eq_true, if_false]
      omega
    · have h1 : s ≤ t := by omega
      have h2 : t < e := by omega
      have hj : naJanela off s e a = true := by
        simp only [naJanela, hp]
        rw [decide_eq_true (⟨h1, h2⟩ : s ≤ t ∧ t < e)]
      simp only [passoContagem, hp, hj, if_neg h, if_true]
      rw [somaTotal_modifyIdx_inc]
      exact hidx t h1 h2

theorem soma_contar (off s e w : Int) (c : Bool) (alerts : List Alerta)
    (bins : List PontoTimeline) (n : Nat) (hn : bins.length = n)
    (hidx : ∀ t : Int, s ≤ t → t < e →
      (if c then min (n - 1) ((t - s).toNat / w.toNat)
       else (t - s).toNat / w.toNat) < n) :
    somaTotal (contarAlertas off s e w c alerts bins)
      = somaTotal bins + alerts.countP (naJanela off s e) := by
  induction alerts generalizing bins with
  | nil => simp [contarAlertas]
  | cons a as ih =>
    have hstep : (passoContagem off s e w c bins a).length = n := by
      rw [comprimento_passo]; exact hn
    have h1 : contarAlertas off s e w c (a :: as) bins
        = contarAlertas off s e w c as (passoContagem off s e w c bins a) := rfl
    rw [h1, ih _ hstep, soma_passo off s e w c bins a (by rw [hn]; exact hidx),
      List.countP_cons]
    omega

theorem map_semRotulo_passo (off s e w : Int) (c : Bool) (bs : List PontoTimeline)
    (a : Alerta) :
    (passoContagem off s e w c bs a).map semRotulo
      = passoContagem off s e w c (bs.map semRotulo) a := by
  unfold passoContagem
  cases parseEmUtc off a.createdAt with
  | none => rfl
  | some t =>
    by_cases h : t < s ∨ e ≤ t
    · simp [h]
    · simp only [h, if_false, List.length_map]
      exact map_modifyIdx_comm bs _ _ semRotulo _ (semRotulo_incSev a.severity)

theorem map_semRotulo_contar (off s e w : Int) (c : Bool) (alerts : List Alerta)
    (bins : List PontoTimeline) :
    (contarAlertas off s e w c alerts bins).map semRotulo
      = contarAlertas off s e w c alerts (bins.map semRotulo) := by
  induction alerts generalizing bins with
  | nil => rfl
  | cons a as ih =>
    have h1 : contarAlertas off s e w c (a :: as) bins
        = contarAlertas off s e w c as (passoContagem off s e w c bins a) := rfl
    rw [h1, ih _, map_semRotulo_passo]
    rfl

theorem somaTotal_zeros (n : Nat) (f : Nat → String) :
    somaTotal ((List.range n).map (fun i => (⟨f i, 0, 0, 0, 0⟩ : PontoTimeline))) = 0 := by
  rw [somaTotal]
  apply List.sum_eq_zero
  intro x hx
  simp only [List.map_map, List.mem_map] at hx
  obtain ⟨i, _, hi⟩ := hx
  simp [← hi, somaPonto, Function.comp]

/-! ## Arithmetic lemmas about bucket counts -/

theorem ceil_pos (a b : Nat) (ha : 0 < a) (hb : 0 < b) :
    0 < (a + (b - 1)) / b :=
  Nat.div_pos (by omega) hb

theorem ceil_bounds (a b : Nat) (ha : 0 < a) (hb : 0 < b) :
    a ≤ (max 1 ((a + (b - 1)) / b)) * b ∧ (max 1 ((a + (b - 1)) / b)) * b < a + b := by
  have hqpos := ceil_pos a b ha hb
  have hmax : max 1 ((a + (b - 1)) / b) = (a + (b - 1)) / b := by omega
  rw [hmax]
  have h1 := Nat.div_add_mod (a + (b - 1)) b
  have h2 : (a + (b - 1)) % b < b := Nat.mod_lt _ hb
  have h3 : ((a + (b - 1)) / b) * b = b * ((a + (b - 1)) / b) := Nat.mul_comm ..
  rw [h3]
  omega

theorem div_lt_of_lt_mul (x k b : Nat) (hb : 0 < b) (h : x < k * b) : x / b < k :=
  (Nat.div_lt_iff_lt_mul hb).mpr h

/-! ## Characterization of `Math.min` / `Math.max` over spread lists -/

theorem jsMinList_spec (l : List Int) (hl : l ≠ []) :
    ∃ m, jsMinList l = some m ∧ m ∈ l ∧ ∀ x ∈ l, m ≤ x := by
  induction l with
  | nil => exact absurd rfl hl
  | cons x xs ih =>
    cases hxs : xs with
    | nil => exact ⟨x, by simp [jsMinList], by simp, by simp⟩
    | cons y ys =>
      obtain ⟨m, hm, hmem, hle⟩ := ih (by simp [hxs])
      rw [← hxs] at *
      refine ⟨min x m, ?_, ?_, ?_⟩
      · simp [jsMinList, hm]
      · rcases le_total x m with h | h
        · simp [min_eq_left h]
        · rw [min_eq_right h]; exact List.mem_cons_of_mem _ hmem
      · intro z hz
        rcases List.mem_cons.mp hz with h | h
        · subst h; exact min_le_left ..
        · exact le_trans (min_le_right ..) (hle z h)

theorem jsMaxList_spec (l : List Int) (hl : l ≠ []) :
    ∃ m, jsMaxList l = some m ∧ m ∈ l ∧ ∀ x ∈ l, x ≤ m := by
  induction l with
  | nil => exact absurd rfl hl
  | cons x xs ih =>
    cases hxs : xs with
    | nil => exact ⟨x, by simp [jsMaxList], by simp, by simp⟩
    | cons y ys =>
      obtain ⟨m, hm, hmem, hle⟩ := ih (by simp [hxs])
      rw [← hxs] at *
      refine ⟨max x m, ?_, ?_, ?_⟩
      · simp [jsMaxList, hm]
      · rcases le_total x m with h | h
        · rw [max_eq_right h]; exact List.mem_cons_of_mem _ hmem
        · simp [max_eq_left h]
      · intro z hz
        rcases List.mem_cons.mp hz with h | h
        · subst h; exact le_max_left ..
        · exact le_trans (hle z h) (le_max_right ..)

/-! ## Small facts about the parser and about membership -/

theorem parse_ne_vazia (off : Int) (s : String) (t : Int)
    (h : parseEmUtc off s = some t) : s ≠ "" := by
  intro hs
  rw [hs] at h
  simp [parseEmUtc, jsDateParseSintaxe, lerData, ler4] at h

theorem contains_eq_decide_mem (sel : List Severidade) (x : Severidade) :
    sel.contains x = decide (x ∈ sel) := by
  induction sel with
  | nil => rfl
  | cons y ys ih =>
    by_cases h : x = y
    · subst h; simp
    · simp [List.contains_cons, ih, h, Ne.symm h]

/-! ## Normal form of the aggregator: window resolution + tally -/

theorem construir_norm (off now : Int) (fmt : Formatadores) (alerts : List Alerta)
    (period : Periodo) (range : Option Intervalo) (tz : String) :
    construirTimelineAPartirDeAlertas off now fmt alerts period range tz =
      match janelaResolvida off now alerts period range with
      | none => []
      | some (s, e, w, c) =>
        contarAlertas off s e w c alerts ((List.range (numBuckets s e w c)).map (fun (i : Nat) =>
          (⟨rotuloBucket fmt tz c period w (s + (i : Int) * w), 0, 0, 0, 0⟩ : PontoTimeline))) := by
  have hrel : modoRelativo off now fmt alerts period tz =
      (let w := bucketPeriodo period
       let e := Int.fdiv now w * w + w
       let s := e - tamanhoPeriodo period
       contarAlertas off s e w false alerts ((List.range (numBuckets s e w false)).map (fun (i : Nat) =>
         (⟨rotuloBucket fmt tz false period w (s + (i : Int) * w), 0, 0, 0, 0⟩ : PontoTimeline)))) := by
    unfold modoRelativo numBuckets rotuloBucket
    simp only [Bool.false_eq_true, if_false]
    have harith : Int.fdiv now (bucketPeriodo period) * bucketPeriodo period + bucketPeriodo period -
        (Int.fdiv now (bucketPeriodo period) * bucketPeriodo period + bucketPeriodo period -
          tamanhoPeriodo period) = tamanhoPeriodo period := by ring
    rw [harith]
  unfold construirTimelineAPartirDeAlertas janelaResolvida
  cases range with
  | none => simpa using hrel
  | some r =>
    by_cases htr : (strTruthy r.start || strTruthy r.end_) = true
    · simp only [htr, if_true]
      unfold modoRangeCustom
      cases hres : resolverJanelaExplicita off now alerts r with
      | none => rfl
      | some se =>
        obtain ⟨s, e⟩ := se
        simp [numBuckets, rotuloBucket]
    · have hf : (strTruthy r.start || strTruthy r.end_) = false := by
        simpa using htr
      simp only [hf, Bool.false_eq_true, if_false]
      simpa using hrel

/-! ## Inversion of the resolved window -/

theorem janela_relativa_inv (off now : Int) (alerts : List Alerta) (period : Periodo)
    (range : Option Intervalo) (s e w : Int)
    (h : janelaResolvida off now alerts period range = some (s, e, w, false)) :
    w = bucketPeriodo period ∧ e - s = tamanhoPeriodo period := by
  unfold janelaResolvida at h
  cases range with
  | none =>
    simp only [Option.some.injEq, Prod.mk.injEq] at h
    obtain ⟨h1, h2, h3, _⟩ := h
    subst h1; subst h2
    exact ⟨h3.symm, by ring⟩
  | some r =>
    by_cases htr : (strTruthy r.start || strTruthy r.end_) = true
    · simp only [htr, if_true] at h
      cases hres : resolverJanelaExplicita off now alerts r with
      | none => rw [hres] at h; simp at h
      | some se => obtain ⟨s0, e0⟩ := se; rw [hres] at h; simp at h
    · have hf : (strTruthy r.start || strTruthy r.end_) = false := by simpa using htr
      simp only [hf, Bool.false_eq_true, if_false, Option.some.injEq, Prod.mk.injEq] at h
      obtain ⟨h1, h2, h3, _⟩ := h
      subst h1; subst h2
      exact ⟨h3.symm, by ring⟩

theorem janela_explicita_inv (off now : Int) (alerts : List Alerta) (period : Periodo)
    (range : Option Intervalo) (s e w : Int)
    (h : janelaResolvida off now alerts period range = some (s, e, w, true)) :
    w = larguraBucket s e ∧ s + HOUR ≤ e := by
  unfold janelaResolvida at h
  cases range with
  | none => simp at h
  | some r =>
    by_cases htr : (strTruthy r.start || strTruthy r.end_) = true
    · simp only [htr, if_true] at h
      unfold resolverJanelaExplicita at h
      cases hs : startExplicito off now alerts r.start with
      | none => rw [hs] at h; simp at h
      | some s0 =>
        rw [hs] at h
        cases he : endExplicito off now alerts r.end_ with
        | none =>
          rw [he] at h
          simp only [Option.some.injEq, Prod.mk.injEq] at h
          obtain ⟨h1, h2, h3, _⟩ := h
          subst h1; subst h2; subst h3
          exact ⟨rfl, le_refl _⟩
        | some e0 =>
          rw [he] at h
          simp only [Option.some.injEq, Prod.mk.injEq] at h
          obtain ⟨h1, h2, h3, _⟩ := h
          subst h1; subst h2; subst h3
          exact ⟨rfl, le_max_right ..⟩
    · have hf : (strTruthy r.start || strTruthy r.end_) = false := by simpa using htr
      simp only [hf, Bool.false_eq_true, if_false] at h
      simp at h

theorem raw_lt (s e t : Int) (W K : Nat) (hW : 0 < W)
    (hK : e - s ≤ ((K * W : Nat) : Int)) (h1 : s ≤ t) (h2 : t < e) :
    (t - s).toNat / W < K := by
  apply div_lt_of_lt_mul _ _ _ hW
  omega

theorem num_janela_pos (off now : Int) (alerts : List Alerta) (period : Periodo)
    (range : Option Intervalo) (s e w : Int) (c : Bool)
    (h : janelaResolvida off now alerts period range = some (s, e, w, c)) :
    0 < numBuckets s e w c := by
  cases c with
  | true => simp only [numBuckets, if_true, numBucketsExplicito]; omega
  | false =>
    obtain ⟨hw, hspan⟩ := janela_relativa_inv off now alerts period range s e w h
    subst hw
    cases period with
    | h24 =>
      have hn : numBuckets s e (bucketPeriodo Periodo.h24) false = 24 := by
        simp only [numBuckets, Bool.false_eq_true, if_false]
        rw [hspan]; decide
      rw [hn]; omega
    | d7 =>
      have hn : numBuckets s e (bucketPeriodo Periodo.d7) false = 7 := by
        simp only [numBuckets, Bool.false_eq_true, if_false]
        rw [hspan]; decide
      rw [hn]; omega
    | d30 =>
      have hn : numBuckets s e (bucketPeriodo Periodo.d30) false = 30 := by
        simp only [numBuckets, Bool.false_eq_true, if_false]
        rw [hspan]; decide
      rw [hn]; omega

theorem hidx_janela (off now : Int) (alerts : List Alerta) (period : Periodo)
    (range : Option Intervalo) (s e w : Int) (c : Bool)
    (h : janelaResolvida off now alerts period range = some (s, e, w, c)) :
    ∀ t : Int, s ≤ t → t < e →
      (if c then min (numBuckets s e w c - 1) ((t - s).toNat / w.toNat)
       else (t - s).toNat / w.toNat) < numBuckets s e w c := by
  intro t h1 h2
  cases c with
  | true =>
    have hpos : 0 < numBuckets s e w true := num_janela_pos off now alerts period range s e w true h
    simp only [if_true]
    omega
  | false =>
    obtain ⟨hw, hspan⟩ := janela_relativa_inv off now alerts period range s e w h
    simp only [Bool.false_eq_true, if_false]
    subst hw
    cases period with
    | h24 =>
      have hn : numBuckets s e (bucketPeriodo Periodo.h24) false = 24 := by
        simp only [numBuckets, Bool.false_eq_true, if_false]
        rw [hspan]; decide
      rw [hn]
      exact raw_lt s e t 3600000 24 (by decide) (by rw [hspan]; decide) h1 h2
    | d7 =>
      have hn : numBuckets s e (bucketPeriodo Periodo.d7) false = 7 := by
        simp only [numBuckets, Bool.false_eq_true, if_false]
        rw [hspan]; decide
      rw [hn]
      exact raw_lt s e t 86400000 7 (by decide) (by rw [hspan]; decide) h1 h2
    | d30 =>
      have hn : numBuckets s e (bucketPeriodo Periodo.d30) false = 30 := by
        simp only [numBuckets, Bool.false_eq_true, if_false]
        rw [hspan]; decide
      rw [hn]
      exact raw_lt s e t 86400000 30 (by decide) (by rw [hspan]; decide) h1 h2

/-! ## Coverage arithmetic -/

theorem cobertura_explicita (s e w : Int) (hmin : s + HOUR ≤ e) (hw : w = larguraBucket s e) :
    e - s ≤ (numBucketsExplicito s e w : Int) * w ∧
      (numBucketsExplicito s e w : Int) * w < (e - s) + w := by
  have hwpos : (0 : Int) < w := by
    rw [hw]; unfold larguraBucket; split <;> decide
  have hspanpos : (0 : Int) < e - s := by
    have : (0 : Int) < HOUR := by decide
    omega
  have ha : 0 < (e - s).toNat := by omega
  have hb : 0 < w.toNat := by omega
  obtain ⟨hub, hlb⟩ := ceil_bounds (e - s).toNat w.toNat ha hb
  have hN : numBucketsExplicito s e w
      = max 1 (((e - s).toNat + (w.toNat - 1)) / w.toNat) := rfl
  have h1 : ((e - s).toNat : Int) = e - s := by omega
  have h2 : ((w.toNat : Int)) = w := by omega
  constructor
  · calc e - s = ((e - s).toNat : Int) := h1.symm
      _ ≤ ((max 1 (((e - s).toNat + (w.toNat - 1)) / w.toNat) * w.toNat : Nat) : Int) := by
          exact_mod_cast hub
      _ = ((max 1 (((e - s).toNat + (w.toNat - 1)) / w.toNat) : Nat) : Int) * ((w.toNat : Int)) := by
          push_cast; ring
      _ = (numBucketsExplicito s e w : Int) * w := by rw [h2, ← hN]
  · calc (numBucketsExplicito s e w : Int) * w
        = ((max 1 (((e - s).toNat + (w.toNat - 1)) / w.toNat) : Nat) : Int) * ((w.toNat : Int)) := by
          rw [h2, ← hN]
      _ = ((max 1 (((e - s).toNat + (w.toNat - 1)) / w.toNat) * w.toNat : Nat) : Int) := by
          push_cast; ring
      _ < ((e - s).toNat : Int) + ((w.toNat : Int)) := by
          have := hlb; omega
      _ = (e - s) + w := by rw [h1, h2]

theorem cobertura_relativa (period : Periodo) (s e w : Int) (hw : w = bucketPeriodo period)
    (hspan : e - s = tamanhoPeriodo period) :
    (numBuckets s e w false : Int) * w = e - s := by
  subst hw
  simp only [numBuckets, Bool.false_eq_true, if_false]
  rw [hspan]
  cases period <;> decide

/-! ## Concrete fixtures used by witnesses and counterexamples -/

/-- Label formatters that ignore their arguments (any concrete choice works:
the properties under verification never depend on the rendered label text). -/
def fmtVazio : Formatadores := ⟨fun _ _ => "", fun _ _ => "", fun _ _ => ""⟩

/-- A low-severity alert half an hour past the epoch. -/
def alertaBase : Alerta := ⟨"a1", "t", "1970-01-01T00:30:00Z", none, .baixa, .aberta, "e", "outros", 25⟩

/-- An alert whose `createdAt` does not parse. -/
def alertaSemData : Alerta := ⟨"a2", "t", "sem-data", none, .critica, .aberta, "e", "outros", 100⟩

/-- A medium-severity alert 70 minutes past the epoch. -/
def alertaTarde : Alerta := ⟨"a3", "t", "1970-01-01T01:10:00Z", none, .media, .aberta, "e", "outros", 50⟩

/-- A 90-minute explicit range starting at the epoch. -/
def intervaloMeiaHora : Intervalo := ⟨some "1970-01-01T00:00:00Z", some "1970-01-01T01:30:00Z"⟩

/-! ## Claim theorems -/

/-- C1: for every alert list and window specification whose resolved window
`[s, e)` exists, the sum over all buckets and all four severities of the
counts produced by `construirTimelineAPartirDeAlertas` equals the number of
input alerts whose `createdAt` resolves via `parseEmUtc` to an instant in
the half-open window `[s, e)`; alerts at `e`, outside the window, or
unresolvable contribute to no bucket. -/
theorem conservacao_total_timeline (off now : Int) (fmt : Formatadores)
    (alerts : List Alerta) (period : Periodo) (range : Option Intervalo) (tz : String)
    (s e w : Int) (c : Bool)
    (h : janelaResolvida off now alerts period range = some (s, e, w, c)) :
    somaTotal (construirTimelineAPartirDeAlertas off now fmt alerts period range tz)
      = alerts.countP (naJanela off s e) := by
  simp only [construir_norm, h]
  rw [soma_contar off s e w c alerts _ (numBuckets s e w c) (by simp)
    (hidx_janela off now alerts period range s e w c h)]
  rw [somaTotal_zeros]
  simp

/-- Witness: the 24-hour relative window anchored at `now = 0` tallies
exactly the in-window alerts of a concrete two-alert list. -/
theorem conservacao_total_timeline_witness :
    somaTotal (construirTimelineAPartirDeAlertas 0 0 fmtVazio [alertaBase, alertaSemData]
        .h24 none "UTC")
      = List.countP (naJanela 0 (-82800000) 3600000) [alertaBase, alertaSemData] :=
  conservacao_total_timeline 0 0 fmtVazio [alertaBase, alertaSemData] .h24 none "UTC"
    (-82800000) 3600000 3600000 false (by decide)

/-- C9: the display time zone influences only the human-readable bucket
labels: stripping labels, the timelines computed for any two time zones
from identical inputs coincide (same number of buckets, same per-severity
counts in every bucket). -/
theorem fuso_nao_afeta_contagens (off now : Int) (fmt : Formatadores)
    (alerts : List Alerta) (period : Periodo) (range : Option Intervalo)
    (tz1 tz2 : String) :
    (construirTimelineAPartirDeAlertas off now fmt alerts period range tz1).map semRotulo
      = (construirTimelineAPartirDeAlertas off now fmt alerts period range tz2).map semRotulo := by
  rw [construir_norm off now fmt alerts period range tz1,
    construir_norm off now fmt alerts period range tz2]
  cases h : janelaResolvida off now alerts period range with
  | none => rfl
  | some x =>
    obtain ⟨s, e, w, c⟩ := x
    simp only []
    rw [map_semRotulo_contar, map_semRotulo_contar]
    congr 1
    simp [List.map_map, Function.comp, semRotulo]

/-- C10: whenever the resolved window `[s, e)` exists, the timeline is
non-empty and, for every instant `t` with `s ≤ t < e`, the bucket index the
tally loop computes — clamped to the last bucket in explicit mode,
unclamped in relative mode — is a valid index into the bucket array. -/
theorem indice_bucket_valido (off now : Int) (fmt : Formatadores)
    (alerts : List Alerta) (period : Periodo) (range : Option Intervalo) (tz : String)
    (s e w : Int) (c : Bool)
    (h : janelaResolvida off now alerts period range = some (s, e, w, c)) :
    0 < (construirTimelineAPartirDeAlertas off now fmt alerts period range tz).length ∧
    ∀ t : Int, s ≤ t → t < e →
      (if c then
        min ((construirTimelineAPartirDeAlertas off now fmt alerts period range tz).length - 1)
          ((t - s).toNat / w.toNat)
       else (t - s).toNat / w.toNat)
        < (construirTimelineAPartirDeAlertas off now fmt alerts period range tz).length := by
  have hL : (construirTimelineAPartirDeAlertas off now fmt alerts period range tz).length
      = numBuckets s e w c := by
    simp only [construir_norm, h]
    rw [comprimento_contar]
    simp
  rw [hL]
  exact ⟨num_janela_pos off now alerts period range s e w c h,
    hidx_janela off now alerts period range s e w c h⟩

/-- Witness: in the concrete 24-hour relative window anchored at `now = 0`,
the instant `t = 0` receives the in-bounds bucket index 23 < 24. -/
theorem indice_bucket_valido_witness :
    (if false then
      min ((construirTimelineAPartirDeAlertas 0 0 fmtVazio [alertaBase] .h24 none "UTC").length - 1)
        (((0 : Int) - (-82800000)).toNat / (3600000 : Int).toNat)
     else ((0 : Int) - (-82800000)).toNat / (3600000 : Int).toNat)
      < (construirTimelineAPartirDeAlertas 0 0 fmtVazio [alertaBase] .h24 none "UTC").length :=
  (indice_bucket_valido 0 0 fmtVazio [alertaBase] .h24 none "UTC"
    (-82800000) 3600000 3600000 false (by decide)).2 0 (by decide) (by decide)

/-- C2 counterexample: a 90-minute explicit range with a non-empty alert
list produces two hourly buckets, whose union `[start, start + 2h)` is
strictly larger than the window `[start, end)`, and `end − start` is not
divisible by the bucket width. -/
theorem cobertura_exata_contraexemplo :
    janelaResolvida 0 0 [alertaBase] .h24 (some intervaloMeiaHora)
        = some (0, 5400000, 3600000, true) ∧
    (construirTimelineAPartirDeAlertas 0 0 fmtVazio [alertaBase] .h24
        (some intervaloMeiaHora) "UTC").length = 2 ∧
    ¬((2 : Int) * 3600000 = 5400000 - 0) := by
  refine ⟨by decide, by decide, by decide⟩

/-- C2 amended: the bucket sequence is contiguous with bucket `i` covering
`[s + i·w, s + (i+1)·w)`; its union `[s, s + L·w)` contains `[s, e)` and
overshoots it by less than one bucket width, with equality (exact coverage
and divisibility of `e − s` by `w`) guaranteed in relative mode. -/
theorem cobertura_buckets (off now : Int) (fmt : Formatadores)
    (alerts : List Alerta) (period : Periodo) (range : Option Intervalo) (tz : String)
    (s e w : Int) (c : Bool)
    (h : janelaResolvida off now alerts period range = some (s, e, w, c)) :
    0 < (construirTimelineAPartirDeAlertas off now fmt alerts period range tz).length ∧
    e - s ≤ ((construirTimelineAPartirDeAlertas off now fmt alerts period range tz).length : Int) * w ∧
    ((construirTimelineAPartirDeAlertas off now fmt alerts period range tz).length : Int) * w
      < (e - s) + w ∧
    (c = false →
      ((construirTimelineAPartirDeAlertas off now fmt alerts period range tz).length : Int) * w
        = e - s) := by
  have hL : (construirTimelineAPartirDeAlertas off now fmt alerts period range tz).length
      = numBuckets s e w c := by
    simp only [construir_norm, h]
    rw [comprimento_contar]
    simp
  rw [hL]
  refine ⟨num_janela_pos off now alerts period range s e w c h, ?_⟩
  cases c with
  | true =>
    obtain ⟨hw, hmin⟩ := janela_explicita_inv off now alerts period range s e w h
    obtain ⟨h1, h2⟩ := cobertura_explicita s e w hmin hw
    have hNB : numBuckets s e w true = numBucketsExplicito s e w := rfl
    rw [hNB]
    exact ⟨h1, h2, by intro hc; cases hc⟩
  | false =>
    obtain ⟨hw, hspan⟩ := janela_relativa_inv off now alerts period range s e w h
    have hex := cobertura_relativa period s e w hw hspan
    have hwpos : (0 : Int) < w := by
      rw [hw]; cases period <;> decide
    exact ⟨by omega, by omega, fun _ => hex⟩

/-- Witness: coverage bounds instantiated at the concrete 90-minute
explicit range. -/
theorem cobertura_buckets_witness :
    0 < (construirTimelineAPartirDeAlertas 0 0 fmtVazio [alertaBase] .h24
        (some intervaloMeiaHora) "UTC").length ∧
    (5400000 : Int) - 0 ≤ ((construirTimelineAPartirDeAlertas 0 0 fmtVazio [alertaBase] .h24
        (some intervaloMeiaHora) "UTC").length : Int) * 3600000 ∧
    ((construirTimelineAPartirDeAlertas 0 0 fmtVazio [alertaBase] .h24
        (some intervaloMeiaHora) "UTC").length : Int) * 3600000 < ((5400000 : Int) - 0) + 3600000 ∧
    (true = false →
      ((construirTimelineAPartirDeAlertas 0 0 fmtVazio [alertaBase] .h24
        (some intervaloMeiaHora) "UTC").length : Int) * 3600000 = (5400000 : Int) - 0) :=
  cobertura_buckets 0 0 fmtVazio [alertaBase] .h24 (some intervaloMeiaHora) "UTC"
    0 5400000 3600000 true (by decide)

/-- C6: an explicit range whose parsed endpoints satisfy `end − start < 1h`
(including `start = end`) is widened to `end = start + 1h`, bucketed
hourly, and yields exactly one bucket covering `[start, start + 1h)`. -/
theorem janela_minima_uma_hora (off now : Int) (fmt : Formatadores)
    (alerts : List Alerta) (period : Periodo) (tz : String) (ss es : String) (s0 e0 : Int)
    (hs : parseEmUtc off ss = some s0) (he : parseEmUtc off es = some e0)
    (hlt : e0 - s0 < HOUR) :
    janelaResolvida off now alerts period (some ⟨some ss, some es⟩)
        = some (s0, s0 + HOUR, HOUR, true) ∧
    (construirTimelineAPartirDeAlertas off now fmt alerts period
        (some ⟨some ss, some es⟩) tz).length = 1 := by
  have hsne : ss ≠ "" := parse_ne_vazia off ss s0 hs
  have hene : es ≠ "" := parse_ne_vazia off es e0 he
  have htr : (strTruthy (some ss) || strTruthy (some es)) = true := by
    simp [strTruthy, hsne]
  have hstart : startExplicito off now alerts (some ss) = some s0 := by
    simp [startExplicito, strTruthy, hsne, hs]
  have hend : endExplicito off now alerts (some es) = some e0 := by
    simp [endExplicito, strTruthy, hene, he]
  have hmax : max e0 (s0 + HOUR) = s0 + HOUR := max_eq_right (by omega)
  have hres : resolverJanelaExplicita off now alerts ⟨some ss, some es⟩
      = some (s0, s0 + HOUR) := by
    unfold resolverJanelaExplicita
    simp only [hstart, hend, hmax]
  have hcancel : s0 + HOUR - s0 = HOUR := by ring
  have hlarg : larguraBucket s0 (s0 + HOUR) = HOUR := by
    unfold larguraBucket
    rw [hcancel, if_pos (by decide)]
  have hjan : janelaResolvida off now alerts period (some ⟨some ss, some es⟩)
      = some (s0, s0 + HOUR, HOUR, true) := by
    unfold janelaResolvida
    simp only [htr, if_true, hres, hlarg]
  refine ⟨hjan, ?_⟩
  have hL : (construirTimelineAPartirDeAlertas off now fmt alerts period
      (some ⟨some ss, some es⟩) tz).length = numBuckets s0 (s0 + HOUR) HOUR true := by
    simp only [construir_norm, hjan]
    rw [comprimento_contar]
    simp
  rw [hL]
  simp only [numBuckets, if_true, numBucketsExplicito, hcancel]
  decide

/-- Witness: a zero-width explicit range at a concrete instant yields the
single bucket `[start, start + 1h)`. -/
theorem janela_minima_uma_hora_witness :
    janelaResolvida 0 0 [] .h24
        (some ⟨some "2025-08-26T13:07:41Z", some "2025-08-26T13:07:41Z"⟩)
      = some (1756213661000, 1756213661000 + HOUR, HOUR, true) ∧
    (construirTimelineAPartirDeAlertas 0 0 fmtVazio [] .h24
        (some ⟨some "2025-08-26T13:07:41Z", some "2025-08-26T13:07:41Z"⟩) "UTC").length = 1 :=
  janela_minima_uma_hora 0 0 fmtVazio [] .h24 "UTC"
    "2025-08-26T13:07:41Z" "2025-08-26T13:07:41Z" 1756213661000 1756213661000
    (by decide) (by decide) (by decide)

/-- C3: evaluation of the normalizer at the spec's four literal inputs.
The claim fails on the code: `parseEmUtc` delegates to the host `new Date`
parser, so `"26/08/2025 13:07"` is Invalid Date (unresolvable, for every
host zone), and `"2025-08-26 13:07:41"` is interpreted in the host's local
zone — at UTC−03:00 it differs from the claimed UTC instant by three hours —
although the module's own header comment documents both forms as UTC.  The
`Z`-suffixed string and the epoch-second/millisecond numbers do normalize
to the claimed instant. -/
theorem normalizacao_literais :
    (∀ off : Int, parseEmUtc off "26/08/2025 13:07" = none) ∧
    parseEmUtc (-180) "2025-08-26 13:07:41" = some 1756224461000 ∧
    parseEmUtc (-180) "2025-08-26T13:07:41Z" = some 1756213661000 ∧
    paraISO (some (.numero 1756213661)) = some "2025-08-26T13:07:41.000Z" ∧
    paraISO (some (.numero 1756213661000)) = some "2025-08-26T13:07:41.000Z" ∧
    parseEmUtc (-180) "2025-08-26T13:07:41.000Z" = some 1756213661000 ∧
    (1756224461000 : Int) ≠ 1756213661000 := by
  refine ⟨?_, by decide, by decide, by decide, by decide, by decide, by decide⟩
  intro off
  have hsin : jsDateParseSintaxe "26/08/2025 13:07" = none := by decide
  rw [parseEmUtc, hsin]
  rfl

/-- A raw alert header carrying no date field at all. -/
def headerSemData : ApiAlertHeaderRaw :=
  ⟨"A1", none, none, none, none, none, none, none, none, none⟩

/-- C4: evaluation of the normalization pipeline at a record with an absent
timestamp.  The claim fails on the code: `adaptarHeaderParaAlerta` computes
`createdAt: (paraISO(dataEvento) as string) || new Date().toISOString()`,
so the adapted alert's `createdAt` is the current wall-clock instant, which
`parseEmUtc` then resolves — the record is *not* excluded from time-based
aggregation and the current time *is* substituted. -/
theorem fallback_agora_em_createdAt :
    (adaptarHeaderParaAlerta 1756213661000 headerSemData).createdAt
        = "2025-08-26T13:07:41.000Z" ∧
    parseEmUtc 0 (adaptarHeaderParaAlerta 1756213661000 headerSemData).createdAt
        = some 1756213661000 ∧
    naJanela 0 1756213661000 (1756213661000 + HOUR)
        (adaptarHeaderParaAlerta 1756213661000 headerSemData) = true := by
  refine ⟨by decide, by decide, by decide⟩

/-- C8: with a non-empty severity filter active, the displayed timeline is
exactly the aggregator's output over the full, unfiltered alert list with
every count of a non-selected severity replaced by zero — same number of
buckets, identical labels, counts of selected severities untouched. -/
theorem filtro_severidade_pos_hoc (off now : Int) (fmt : Formatadores)
    (alerts : List Alerta) (periodo : Periodo) (range : Option Intervalo) (tz : String)
    (sel : List Severidade) (hsel : sel ≠ []) :
    dadosTimeline off now fmt alerts periodo range tz sel
      = (construirTimelineAPartirDeAlertas off now fmt alerts periodo range tz).map
          (zeraForaSpec sel) ∧
    (dadosTimeline off now fmt alerts periodo range tz sel).map (fun p => p.hour)
      = (construirTimelineAPartirDeAlertas off now fmt alerts periodo range tz).map
          (fun p => p.hour) := by
  have hlen : sel.length ≠ 0 := by
    intro h0
    exact hsel (List.length_eq_zero.mp h0)
  have hmain : dadosTimeline off now fmt alerts periodo range tz sel
      = (construirTimelineAPartirDeAlertas off now fmt alerts periodo range tz).map
          (zeraForaSpec sel) := by
    unfold dadosTimeline
    rw [if_neg hlen]
    apply List.map_congr_left
    intro b _
    unfold zeraForaSpec
    rw [contains_eq_decide_mem, contains_eq_decide_mem, contains_eq_decide_mem,
      contains_eq_decide_mem]
    simp
  refine ⟨hmain, ?_⟩
  rw [hmain, List.map_map]
  apply List.map_congr_left
  intro b _
  rfl

/-- Witness: the zeroing pass at a concrete two-alert timeline with only
medium severity selected. -/
theorem filtro_severidade_pos_hoc_witness :
    dadosTimeline 0 0 fmtVazio [alertaBase, alertaTarde] .h24 (some intervaloMeiaHora)
        "UTC" [.media]
      = (construirTimelineAPartirDeAlertas 0 0 fmtVazio [alertaBase, alertaTarde] .h24
          (some intervaloMeiaHora) "UTC").map (zeraForaSpec [.media]) ∧
    (dadosTimeline 0 0 fmtVazio [alertaBase, alertaTarde] .h24 (some intervaloMeiaHora)
        "UTC" [.media]).map (fun p => p.hour)
      = (construirTimelineAPartirDeAlertas 0 0 fmtVazio [alertaBase, alertaTarde] .h24
          (some intervaloMeiaHora) "UTC").map (fun p => p.hour) :=
  filtro_severidade_pos_hoc 0 0 fmtVazio [alertaBase, alertaTarde] .h24
    (some intervaloMeiaHora) "UTC" [.media] (by decide)

/-! ## Fold characterizations for the spec-side minima/maxima -/

theorem foldl_min_spec (x : Int) (xs : List Int) :
    xs.foldl min x ∈ x :: xs ∧ ∀ y ∈ x :: xs, xs.foldl min x ≤ y := by
  induction xs generalizing x with
  | nil => simp
  | cons z zs ih =>
    obtain ⟨hmem, hle⟩ := ih (min x z)
    simp only [List.foldl_cons]
    constructor
    · rcases List.mem_cons.mp hmem with h | h
      · rcases min_choice x z with hc | hc
        · exact List.mem_cons.mpr (Or.inl (h.trans hc))
        · exact List.mem_cons.mpr (Or.inr (List.mem_cons.mpr (Or.inl (h.trans hc))))
      · exact List.mem_cons_of_mem _ (List.mem_cons_of_mem _ h)
    · intro y hy
      have hres : zs.foldl min (min x z) ≤ min x z := hle _ (List.mem_cons_self ..)
      rcases List.mem_cons.mp hy with h | h
      · subst h; exact le_trans hres (min_le_left ..)
      · rcases List.mem_cons.mp h with h2 | h2
        · subst h2; exact le_trans hres (min_le_right ..)
        · exact hle y (List.mem_cons_of_mem _ h2)

theorem foldl_max_spec (x : Int) (xs : List Int) :
    xs.foldl max x ∈ x :: xs ∧ ∀ y ∈ x :: xs, y ≤ xs.foldl max x := by
  induction xs generalizing x with
  | nil => simp
  | cons z zs ih =>
    obtain ⟨hmem, hle⟩ := ih (max x z)
    simp only [List.foldl_cons]
    constructor
    · rcases List.mem_cons.mp hmem with h | h
      · rcases max_choice x z with hc | hc
        · exact List.mem_cons.mpr (Or.inl (h.trans hc))
        · exact List.mem_cons.mpr (Or.inr (List.mem_cons.mpr (Or.inl (h.trans hc))))
      · exact List.mem_cons_of_mem _ (List.mem_cons_of_mem _ h)
    · intro y hy
      have hres : max x z ≤ zs.foldl max (max x z) := hle _ (List.mem_cons_self ..)
      rcases List.mem_cons.mp hy with h | h
      · subst h; exact le_trans (le_max_left ..) hres
      · rcases List.mem_cons.mp h with h2 | h2
        · subst h2; exact le_trans (le_max_right ..) hres
        · exact hle y (List.mem_cons_of_mem _ h2)

theorem filterMap_parse_eq (off now : Int) (alerts : List Alerta)
    (hall : ∀ a ∈ alerts, (parseEmUtc off a.createdAt).isSome = true) :
    alerts.filterMap (fun a => parseEmUtc off a.createdAt)
      = alerts.map (fun a => (parseEmUtc off a.createdAt).getD now) := by
  induction alerts with
  | nil => rfl
  | cons a as ih =>
    have ha := hall a (List.mem_cons_self ..)
    cases hp : parseEmUtc off a.createdAt with
    | none => rw [hp] at ha; simp at ha
    | some t =>
      simp only [List.filterMap_cons, List.map_cons, hp, Option.getD_some]
      rw [ih (fun b hb => hall b (List.mem_cons_of_mem _ hb))]

/-- C5 counterexample: with a two-alert list containing one unresolvable
timestamp, at current instant `0`, the aggregator's derived start endpoint
is `0` (the unresolvable alert's `Date.now()` substitute), not the minimum
resolvable `createdAt` `4200000` the claim prescribes. -/
theorem derivacao_minimo_contraexemplo :
    startExplicito 0 0 [alertaSemData, alertaTarde] none = some 0 ∧
    minCreatedAtResolvavelSpec 0 [alertaSemData, alertaTarde] = some 4200000 ∧
    ((0 : Int) ≠ 4200000) ∧
    (construirTimelineAPartirDeAlertas 0 0 fmtVazio [alertaSemData, alertaTarde] .h24
        (some ⟨none, some "1970-01-01T20:00:00Z"⟩) "UTC").length = 20 :=
  ⟨by decide, by decide, by decide, by decide⟩

/-- C5 amended: a missing explicit-mode endpoint is derived as the
minimum (resp. maximum) over all input alerts of the alert's resolved
`createdAt` with the current instant substituted per unresolvable alert;
this equals the minimum (resp. maximum) *resolvable* `createdAt` only when
every alert is resolvable.  For an empty alert list the derived endpoints
are the `+∞`/`-∞` of `Math.min()`/`Math.max()` rather than the current
instant: a missing start then yields an empty timeline, and a missing end
resolves to start + 1 hour. -/
theorem derivacao_extremos (off now : Int) (alerts : List Alerta) :
    (alerts = [] → startExplicito off now alerts none = none ∧
      endExplicito off now alerts none = none) ∧
    (alerts ≠ [] → ∃ m, startExplicito off now alerts none = some m ∧
      m ∈ alerts.map (fun a => (parseEmUtc off a.createdAt).getD now) ∧
      ∀ x ∈ alerts.map (fun a => (parseEmUtc off a.createdAt).getD now), m ≤ x) ∧
    (alerts ≠ [] → ∃ m, endExplicito off now alerts none = some m ∧
      m ∈ alerts.map (fun a => (parseEmUtc off a.createdAt).getD now) ∧
      ∀ x ∈ alerts.map (fun a => (parseEmUtc off a.createdAt).getD now), x ≤ m) ∧
    ((∀ a ∈ alerts, (parseEmUtc off a.createdAt).isSome = true) →
      startExplicito off now alerts none = minCreatedAtResolvavelSpec off alerts ∧
      endExplicito off now alerts none = maxCreatedAtResolvavelSpec off alerts) ∧
    (∀ fmt period tz es e0, parseEmUtc off es = some e0 → alerts = [] →
      construirTimelineAPartirDeAlertas off now fmt alerts period
        (some ⟨none, some es⟩) tz = []) ∧
    (∀ period ss s0, parseEmUtc off ss = some s0 → alerts = [] →
      janelaResolvida off now alerts period (some ⟨some ss, none⟩)
        = some (s0, s0 + HOUR, HOUR, true)) := by
  refine ⟨?_, ?_, ?_, ?_, ?_, ?_⟩
  · intro h
    subst h
    exact ⟨rfl, rfl⟩
  · intro hne
    have hm : alerts.map (fun a => (parseEmUtc off a.createdAt).getD now) ≠ [] := by
      simpa using hne
    obtain ⟨m, hm1, hm2, hm3⟩ := jsMinList_spec _ hm
    refine ⟨m, ?_, hm2, hm3⟩
    simp only [startExplicito, strTruthy, Bool.false_eq_true, if_false]
    exact hm1
  · intro hne
    have hm : alerts.map (fun a => (parseEmUtc off a.createdAt).getD now) ≠ [] := by
      simpa using hne
    obtain ⟨m, hm1, hm2, hm3⟩ := jsMaxList_spec _ hm
    refine ⟨m, ?_, hm2, hm3⟩
    simp only [endExplicito, strTruthy, Bool.false_eq_true, if_false]
    exact hm1
  · intro hall
    have hfm := filterMap_parse_eq off now alerts hall
    cases halerts : alerts with
    | nil => subst halerts; exact ⟨rfl, rfl⟩
    | cons a as =>
      subst halerts
      have hm : (a :: as).map (fun a => (parseEmUtc off a.createdAt).getD now) ≠ [] := by simp
      constructor
      · obtain ⟨m, hm1, hm2, hm3⟩ := jsMinList_spec _ hm
        have hstart : startExplicito off now (a :: as) none = some m := by
          simp only [startExplicito, strTruthy, Bool.false_eq_true, if_false]
          exact hm1
        rw [hstart]
        unfold minCreatedAtResolvavelSpec
        rw [hfm]
        simp only [List.map_cons]
        obtain ⟨hf1, hf2⟩ := foldl_min_spec ((parseEmUtc off a.createdAt).getD now)
          (as.map (fun a => (parseEmUtc off a.createdAt).getD now))
        have heq : m = (as.map (fun a => (parseEmUtc off a.createdAt).getD now)).foldl min
            ((parseEmUtc off a.createdAt).getD now) := by
          apply le_antisymm
          · exact hm3 _ (by simpa using hf1)
          · exact hf2 m (by simpa using hm2)
        rw [heq]
      · obtain ⟨m, hm1, hm2, hm3⟩ := jsMaxList_spec _ hm
        have hend : endExplicito off now (a :: as) none = some m := by
          simp only [endExplicito, strTruthy, Bool.false_eq_true, if_false]
          exact hm1
        rw [hend]
        unfold maxCreatedAtResolvavelSpec
        rw [hfm]
        simp only [List.map_cons]
        obtain ⟨hf1, hf2⟩ := foldl_max_spec ((parseEmUtc off a.createdAt).getD now)
          (as.map (fun a => (parseEmUtc off a.createdAt).getD now))
        have heq : m = (as.map (fun a => (parseEmUtc off a.createdAt).getD now)).foldl max
            ((parseEmUtc off a.createdAt).getD now) := by
          apply le_antisymm
          · exact hf2 m (by simpa using hm2)
          · exact hm3 _ (by simpa using hf1)
        rw [heq]
  · intro fmt period tz es e0 hes hnil
    subst hnil
    have hene : es ≠ "" := parse_ne_vazia off es e0 hes
    have hjan : janelaResolvida off now [] period (some ⟨none, some es⟩) = none := by
      unfold janelaResolvida
      have htr : (strTruthy (none : Option String) || strTruthy (some es)) = true := by
        simp [strTruthy, hene]
      simp only [htr, if_true]
      unfold resolverJanelaExplicita
      have hstart : startExplicito off now [] none = none := rfl
      rw [hstart]
    simp only [construir_norm, hjan]
  · intro period ss s0 hss hnil
    subst hnil
    have hsne : ss ≠ "" := parse_ne_vazia off ss s0 hss
    have htr : (strTruthy (some ss) || strTruthy (none : Option String)) = true := by
      simp [strTruthy, hsne]
    unfold janelaResolvida
    simp only [htr, if_true]
    unfold resolverJanelaExplicita
    have hstart : startExplicito off now [] (some ss) = some s0 := by
      simp [startExplicito, strTruthy, hsne, hss]
    have hend : endExplicito off now [] none = none := rfl
    have hlarg : larguraBucket s0 (s0 + HOUR) = HOUR := by
      unfold larguraBucket
      rw [show s0 + HOUR - s0 = HOUR by ring, if_pos (by decide)]
    simp only [hstart, hend, hlarg]

/-- Witness: endpoint derivation evaluated at a concrete non-empty list
(minimum picks the unresolvable alert's `now` substitute) and at the empty
list (`+∞` start). -/
theorem derivacao_extremos_witness :
    (∃ m, startExplicito 0 0 [alertaSemData, alertaTarde] none = some m ∧
      m ∈ [alertaSemData, alertaTarde].map
        (fun a => (parseEmUtc 0 a.createdAt).getD 0) ∧
      ∀ x ∈ [alertaSemData, alertaTarde].map
        (fun a => (parseEmUtc 0 a.createdAt).getD 0), m ≤ x) ∧
    (startExplicito 0 0 ([] : List Alerta) none = none ∧
      endExplicito 0 0 ([] : List Alerta) none = none) :=
  ⟨(derivacao_extremos 0 0 [alertaSemData, alertaTarde]).2.1 (by decide),
    (derivacao_extremos 0 0 []).1 rfl⟩

/-! ## Prefix reasoning for the severity classifier -/

theorem isPrefixOf_cons_ex (c : Char) (p l : List Char)
    (h : List.isPrefixOf (c :: p) l = true) : ∃ r, l = c :: r := by
  cases l with
  | nil => simp [List.isPrefixOf] at h
  | cons b bs =>
    simp only [List.isPrefixOf, Bool.and_eq_true, beq_iff_eq] at h
    exact ⟨bs, by rw [h.1]⟩

theorem isPrefixOf_false_fst (c1 c2 : Char) (p r : List Char) (hne : c2 ≠ c1) :
    List.isPrefixOf (c2 :: p) (c1 :: r) = false := by
  simp [List.isPrefixOf, hne]

theorem comecaCom_data (v : String) (c : Char) (p : List Char)
    (h : List.isPrefixOf (c :: p) v.data = true) : ∃ r, v.data = c :: r :=
  isPrefixOf_cons_ex c p v.data h

theorem data_ne_vazia (v : String) (c : Char) (r : List Char) (h : v.data = c :: r) :
    v ≠ "" := by
  intro hv
  rw [hv] at h
  simp at h

/-- C7: the severity classifier lower-cases its input and classifies by
prefix — `"cr"` ↦ critical, `"al"` ↦ high, `"mé"`/`"me"` ↦ medium,
`"ba"` ↦ low, anything else (or an empty/absent label) ↦ the unresolved
sentinel, which the adapter defaults to medium; in particular `"Crítico"`,
`"crítica"` and `"CRITICA"` classify critical, `"Médio"` medium, and
`"N/A"` is unresolved and defaulted to medium by the caller. -/
theorem classificacao_severidade :
    (∀ s : String, comecaCom (jsToLower s) "cr" = true →
      mapearSeveridade (some s) = some .critica) ∧
    (∀ s : String, comecaCom (jsToLower s) "al" = true →
      mapearSeveridade (some s) = some .alta) ∧
    (∀ s : String, comecaCom (jsToLower s) "mé" = true →
      mapearSeveridade (some s) = some .media) ∧
    (∀ s : String, comecaCom (jsToLower s) "me" = true →
      mapearSeveridade (some s) = some .media) ∧
    (∀ s : String, comecaCom (jsToLower s) "ba" = true →
      mapearSeveridade (some s) = some .baixa) ∧
    (∀ s : String, jsToLower s ≠ "" →
      comecaCom (jsToLower s) "cr" = false → comecaCom (jsToLower s) "al" = false →
      comecaCom (jsToLower s) "mé" = false → comecaCom (jsToLower s) "me" = false →
      comecaCom (jsToLower s) "ba" = false → mapearSeveridade (some s) = none) ∧
    mapearSeveridade none = none ∧
    mapearSeveridade (some "Crítico") = some .critica ∧
    mapearSeveridade (some "crítica") = some .critica ∧
    mapearSeveridade (some "CRITICA") = some .critica ∧
    mapearSeveridade (some "Médio") = some .media ∧
    mapearSeveridade (some "N/A") = none ∧
    (mapearSeveridade (some "N/A")).getD .media = .media ∧
    (adaptarHeaderParaAlerta 0 ⟨"A2", none, some "N/A", none, none, none, none, none,
      none, none⟩).severity = .media := by
  have hcr : ("cr".data : List Char) = ['c', 'r'] := rfl
  have hal : ("al".data : List Char) = ['a', 'l'] := rfl
  have hba : ("ba".data : List Char) = ['b', 'a'] := rfl
  refine ⟨?_, ?_, ?_, ?_, ?_, ?_, rfl, by decide, by decide, by decide, by decide,
    by decide, by decide, by decide⟩
  · intro s h
    unfold comecaCom at h
    rw [hcr] at h
    obtain ⟨r, hr⟩ := comecaCom_data _ _ _ h
    have hne : jsToLower s ≠ "" := data_ne_vazia _ _ _ hr
    simp only [mapearSeveridade]
    rw [if_neg hne, if_pos (by unfold comecaCom; rw [hcr]; exact h)]
  · intro s h
    unfold comecaCom at h
    rw [hal] at h
    obtain ⟨r, hr⟩ := comecaCom_data _ _ _ h
    have hne : jsToLower s ≠ "" := data_ne_vazia _ _ _ hr
    have hcrf : comecaCom (jsToLower s) "cr" = false := by
      unfold comecaCom; rw [hcr, hr]; exact isPrefixOf_false_fst _ _ _ _ (by decide)
    simp only [mapearSeveridade]
    rw [if_neg hne, if_neg (by simp [hcrf]), if_pos (by unfold comecaCom; rw [hal]; exact h)]
  · intro s h
    unfold comecaCom at h
    obtain ⟨r, hr⟩ := comecaCom_data _ _ _ h
    have hne : jsToLower s ≠ "" := data_ne_vazia _ _ _ hr
    have hcrf : comecaCom (jsToLower s) "cr" = false := by
      unfold comecaCom; rw [hcr, hr]; exact isPrefixOf_false_fst _ _ _ _ (by decide)
    have half : comecaCom (jsToLower s) "al" = false := by
      unfold comecaCom; rw [hal, hr]; exact isPrefixOf_false_fst _ _ _ _ (by decide)
    simp only [mapearSeveridade]
    rw [if_neg hne, if_neg (by simp [hcrf]), if_neg (by simp [half]),
      if_pos (by rw [Bool.or_eq_true]; left; exact h)]
  · intro s h
    unfold comecaCom at h
    obtain ⟨r, hr⟩ := comecaCom_data _ _ _ h
    have hne : jsToLower s ≠ "" := data_ne_vazia _ _ _ hr
    have hcrf : comecaCom (jsToLower s) "cr" = false := by
      unfold comecaCom; rw [hcr, hr]; exact isPrefixOf_false_fst _ _ _ _ (by decide)
    have half : comecaCom (jsToLower s) "al" = false := by
      unfold comecaCom; rw [hal, hr]; exact isPrefixOf_false_fst _ _ _ _ (by decide)
    simp only [mapearSeveridade]
    rw [if_neg hne, if_neg (by simp [hcrf]), if_neg (by simp [half]),
      if_pos (by rw [Bool.or_eq_true]; right; exact h)]
  · intro s h
    unfold comecaCom at h
    rw [hba] at h
    obtain ⟨r, hr⟩ := comecaCom_data _ _ _ h
    have hne : jsToLower s ≠ "" := data_ne_vazia _ _ _ hr
    have hcrf : comecaCom (jsToLower s) "cr" = false := by
      unfold comecaCom; rw [hcr, hr]; exact isPrefixOf_false_fst _ _ _ _ (by decide)
    have half : comecaCom (jsToLower s) "al" = false := by
      unfold comecaCom; rw [hal, hr]; exact isPrefixOf_false_fst _ _ _ _ (by decide)
    have hmef : comecaCom (jsToLower s) "mé" = false := by
      unfold comecaCom; rw [hr]; exact isPrefixOf_false_fst _ _ _ _ (by decide)
    have hme2f : comecaCom (jsToLower s) "me" = false := by
      unfold comecaCom; rw [hr]; exact isPrefixOf_false_fst _ _ _ _ (by decide)
    simp only [mapearSeveridade]
    rw [if_neg hne, if_neg (by simp [hcrf]), if_neg (by simp [half]),
      if_neg (by simp [hmef, hme2f]), if_pos (by unfold comecaCom; rw [hba]; exact h)]
  · intro s hne h1 h2 h3 h4 h5
    simp only [mapearSeveridade]
    rw [if_neg hne, if_neg (by simp [h1]), if_neg (by simp [h2]),
      if_neg (by simp [h3, h4]), if_neg (by simp [h5])]

/-- Witness: the prefix rules applied at concrete labels, one per branch. -/
theorem classificacao_severidade_witness :
    mapearSeveridade (some "cracha") = some .critica ∧
    mapearSeveridade (some "ALERTA") = some .alta ∧
    mapearSeveridade (some "média") = some .media ∧
    mapearSeveridade (some "MEDIUM") = some .media ∧
    mapearSeveridade (some "Baixa") = some .baixa ∧
    mapearSeveridade (some "xyz") = none :=
  ⟨classificacao_severidade.1 "cracha" (by decide),
    classificacao_severidade.2.1 "ALERTA" (by decide),
    classificacao_severidade.2.2.1 "média" (by decide),
    classificacao_severidade.2.2.2.1 "MEDIUM" (by decide),
    classificacao_severidade.2.2.2.2.1 "Baixa" (by decide),
    classificacao_severidade.2.2.2.2.2.1 "xyz" (by decide) (by decide) (by decide)
      (by decide) (by decide) (by decide)⟩

end Safeteer
